import Mathlib

/-!
Verification development for the image-resolution and frame-pipeline core of
a chat-bot image command processor (Rust sources: `src/utils/resolver.rs`,
`src/utils/imaging.rs`, `src/utils/functions.rs`, `src/utils/helpers.rs`,
`src/utils/error.rs`).

The Rust code is shallowly embedded: network and platform collaborators
(reqwest HTTP fetches, serenity argument converters, attachment downloads)
are modelled as oracle functions collected in an `Env` structure; byte
buffers are modelled as an opaque payload together with an explicit length;
machine integers (`u64`, `u32`, `usize`) are modelled as `Nat` (all sizes in
play are far below any overflow boundary); `Result<T, Error>` becomes
`Except Error T`.  Floating point in `contain_size` is modelled by exact
rational ceiling arithmetic on `Nat` (`f64` holds all `u32` values exactly;
only the rounding of the quotient is abstracted, and degenerate zero
dimensions are excluded by hypotheses where relevant).
-/

/-- Byte buffer model: an opaque content tag plus an explicit length
(`len` plays the role of `Vec<u8>::len` / `bytes.len()`). -/
structure Bytes where
  data : Nat
  len : Nat
deriving DecidableEq, Repr

/-- The error enum from `src/utils/error.rs`.  Payloads of the wrapped
library errors (`reqwest::Error`, `SerenityError`, `ril::Error`) are
abstracted away. -/
inductive Error where
  | TooManyFrames (count : Nat) (maxFrames : Nat)
  | ImageTooLarge (size : Nat) (maxSize : Nat)
  | EmojiParseError (argument : String)
  | FetchUrlError
  | InvalidContentType
  | RequestError
  | SerenityError
  | RilError
deriving DecidableEq, Repr

/-- `DEFAULT_MAX_SIZE` from `resolver.rs`: 16 MB. -/
def DEFAULT_MAX_SIZE : Nat := 16000000

/-- An HTTP response as observed by the resolver: status success flag,
optional `Content-Type` header, optional declared `content_length`, the
body bytes, and the body decoded as text (used for the tenor page branch). -/
structure Response where
  success : Bool
  contentType : Option String
  contentLength : Option Nat
  body : Bytes
  text : String

/-- A guild member as used by the resolver: guild avatar hash, the inner
user's avatar hash, and the `face()` URL computed by serenity. -/
structure Member where
  avatar : Option String
  userAvatar : Option String
  face : String

/-- A user as used by the resolver: id, avatar hash and `face()` URL. -/
structure User where
  id : Nat
  avatar : Option String
  face : String

/-- A custom guild emoji object as returned by `Emoji::convert`; only its
CDN `url()` is consumed. -/
structure EmojiObj where
  url : String

/-- A message attachment: `content_type`, declared `size`, and the outcome
of `Attachment::download()` (an external HTTP download, modelled as data). -/
structure Attachment where
  contentType : Option String
  size : Nat
  download : Except Error Bytes

/-- A message sticker item; only `image_url()` is consumed. -/
structure StickerItem where
  imageUrl : Option String

/-- An embed image or thumbnail: just its URL. -/
structure EmbedImage where
  url : String

/-- A message embed with optional `image` and `thumbnail`. -/
structure Embed where
  image : Option EmbedImage
  thumbnail : Option EmbedImage

/-- The parts of a message the resolver consumes (shared between the
invoking message and the referenced message). -/
structure Msg where
  attachments : List Attachment
  stickerItems : List StickerItem
  embeds : List Embed
  content : String
  guildId : Option Nat
  channelId : Nat

/-- The invoking message: its own `Msg` data, an optional referenced
(replied-to) message, and the author. -/
structure Message where
  msg : Msg
  referencedMessage : Option Msg
  author : User

/-- The environment of external collaborators: HTTP fetches (`None` models
a transport error from `reqwest`), the serenity `ArgumentConvert`
implementations for `Member`, `User` and `Emoji`, and `guild.member(...)`
lookup (`none` models a serenity error). -/
structure Env where
  fetch : String → Option Response
  memberConvert : Option Nat → Option Nat → String → Option Member
  userConvert : Option Nat → Option Nat → String → Option User
  emojiConvert : Option Nat → Option Nat → String → Option EmojiObj
  guildMember : Nat → Nat → Option Member

/-- The `ImageResolver` struct state from `resolver.rs`. -/
structure ImageResolver where
  maxSize : Nat
  argResolved : Bool
deriving DecidableEq, Repr

/-- `ImageResolver::new()`: default max size, `arg_resolved = true`. -/
def ImageResolver.new : ImageResolver :=
  { maxSize := DEFAULT_MAX_SIZE, argResolved := true }

/-! ### String helpers

Character-level embeddings of the string operations the Rust code performs,
written over `List Char` so that every definition evaluates by kernel
reduction. -/

/-- Embeds `str::starts_with`. -/
def starts_with (s p : String) : Bool :=
  p.toList.isPrefixOf s.toList

/-- Drops an exact literal prefix, returning the rest (used to embed the
literal pieces of the anchored regexes). -/
def dropLit : List Char → List Char → Option (List Char)
  | [], cs => some cs
  | _ :: _, [] => none
  | p :: ps, c :: cs => if c = p then dropLit ps cs else none

/-- Embeds `str::replace` (replace every non-overlapping occurrence,
left to right) for a non-empty pattern `p :: ps`.  Recursion is driven by a
fuel counter (the string length) so the definition is structural and
evaluates by kernel reduction; each step consumes at least one character,
so the fuel never runs out when initialized to the string length. -/
def replaceAllAux (p : Char) (ps rep : List Char) :
    Nat → List Char → List Char
  | 0, cs => cs
  | _ + 1, [] => []
  | fuel + 1, c :: cs =>
    if (p :: ps).isPrefixOf (c :: cs) then
      rep ++ replaceAllAux p ps rep fuel (cs.drop ps.length)
    else
      c :: replaceAllAux p ps rep fuel cs

/-- Embeds `str::replace` at the `String` level.  The patterns used by the
code (`".webp"`) are non-empty; an empty pattern returns the string
unchanged to keep recursion total. -/
def replace_all (s pat rep : String) : String :=
  match pat.toList with
  | [] => s
  | p :: ps =>
    String.mk (replaceAllAux p ps rep.toList s.toList.length s.toList)

/-- Embeds `str::trim` (strip whitespace from both ends). -/
def trim_ws (s : String) : String :=
  String.mk (((s.toList.dropWhile Char.isWhitespace).reverse.dropWhile
    Char.isWhitespace).reverse)

/-- Embeds the argument cleanup at the top of `ImageResolver::resolve_url`:
`arg.trim_start_matches('<').trim_end_matches('>').trim()`. -/
def trim_url_arg (s : String) : String :=
  let cs := s.toList.dropWhile (fun c => c = '<')
  let cs := (cs.reverse.dropWhile (fun c => c = '>')).reverse
  trim_ws (String.mk cs)

/-- The character class `[a-zA-Z0-9_]` of `EMOJI_REGEX`'s name group. -/
def isNameChar (c : Char) : Bool :=
  c.isAlphanum || c = '_'

/-- Embeds `EMOJI_REGEX = ^<(a?):([a-zA-Z0-9_]{1,32}):([0-9]{15,20})>$`.
Returns the three capture groups on a match.  Note that group 1 is `(a?)`:
in the `regex` crate this group always participates in a successful match
(matching the empty string when no `a` is present), so it is returned as
`some g1` with `g1 ∈ {"", "a"}` — never `none`. -/
def emoji_captures (s : String) : Option (Option String × String × String) :=
  match s.toList with
  | '<' :: cs =>
    let cont := fun (g1 : String) (cs : List Char) =>
      let name := cs.takeWhile isNameChar
      let cs1 := cs.drop name.length
      if 1 ≤ name.length ∧ name.length ≤ 32 then
        match cs1 with
        | ':' :: cs2 =>
          let id := cs2.takeWhile Char.isDigit
          let cs3 := cs2.drop id.length
          if 15 ≤ id.length ∧ id.length ≤ 20 then
            match cs3 with
            | ['>'] => some (some g1, String.mk name, String.mk id)
            | _ => none
          else none
        | _ => none
      else none
    match cs with
    | 'a' :: ':' :: cs1 => cont "a" cs1
    | ':' :: cs1 => cont "" cs1
    | _ => none
  | _ => none

/-- Embeds `ID_REGEX = ^([0-9]{15,20})$` (`find` on an anchored pattern:
the whole string is 15–20 ASCII digits). -/
def id_match (s : String) : Option String :=
  let cs := s.toList
  if cs.all Char.isDigit ∧ 15 ≤ cs.length ∧ cs.length ≤ 20 then some s
  else none

/-- The `(animated, id)` computation at the top of
`ImageResolver::convert_emoji`: first the emoji regex (where `animated` is
`captures.get(1).is_some()`), then the bare-id regex, else no id. -/
def convert_emoji_parse (argument : String) : Bool × Option String :=
  match emoji_captures argument with
  | some caps => (caps.fst.isSome, some caps.snd.snd)
  | none =>
    match id_match argument with
    | some m => (false, some m)
    | none => (false, none)

/-- The emoji CDN URL built by `convert_emoji`:
`https://cdn.discordapp.com/emojis/{id}.{gif|png}`. -/
def emoji_cdn_url (animated : Bool) (id : String) : String :=
  let fmt := if animated then "gif" else "png"
  "https://cdn.discordapp.com/emojis/" ++ id ++ "." ++ fmt

/-- Embeds `url_to_bytes` from `helpers.rs`: plain GET, no content-type and
no size validation; a transport error propagates as a wrapped
`reqwest::Error`, a non-success status becomes `FetchUrlError`. -/
def url_to_bytes (env : Env) (url : String) : Except Error Bytes :=
  match env.fetch url with
  | none => .error .RequestError
  | some r => if r.success then .ok r.body else .error .FetchUrlError

/-- Embeds `ImageResolver::convert_emoji`: parse `(animated, id)`, fail with
`EmojiParseError` when no id was extracted, otherwise fetch the CDN URL. -/
def ImageResolver.convert_emoji (env : Env) (argument : String) :
    Except Error Bytes :=
  match convert_emoji_parse argument with
  | (_, none) => .error (.EmojiParseError argument)
  | (animated, some id) => url_to_bytes env (emoji_cdn_url animated id)

/-! ### The tenor / imgur page regexes of `resolve_url`

`TENOR_PAGE_REGEX`, `TENOR_ASSET_URL` and `IMGUR_PAGE_REGEX` are built
case-insensitively, so matching is performed on a per-character lowercased
copy; captured/matched text is sliced from the original string.  All
repetitions in these patterns range over single character classes, so each
regex is embedded as a direct recognizer with the same greedy backtracking
order the `regex` crate exhibits on these patterns. -/

/-- Lowercase a character list (the regexes are case-insensitive). -/
def lowerChars (cs : List Char) : List Char :=
  cs.map Char.toLower

/-- Consume `https?://` at the front of a (lowercased) character list.
The optional `s` is deterministic here because `s ≠ ':'`. -/
def dropScheme (cs : List Char) : Option (List Char) :=
  match dropLit "http".toList cs with
  | none => none
  | some cs1 =>
    let cs2 := match cs1 with
      | 's' :: r => r
      | r => r
    dropLit "://".toList cs2

/-- Embeds `TENOR_PAGE_REGEX = ^https?://(www\.)?tenor\.com/view/\S+/?$`
(case-insensitive).  `\S+/?$` accepts exactly a non-empty run of
non-whitespace characters (the optional `/` is subsumed by `\S`). -/
def tenor_page_match (s : String) : Bool :=
  let cs := lowerChars s.toList
  match dropScheme cs with
  | none => false
  | some cs1 =>
    let tailMatch := fun (cs2 : List Char) =>
      match dropLit "tenor.com/view/".toList cs2 with
      | some rest => !rest.isEmpty && rest.all (fun c => !c.isWhitespace)
      | none => false
    (match dropLit "www.".toList cs1 with
     | some r => tailMatch r
     | none => false) || tailMatch cs1

/-- Embeds `IMGUR_PAGE_REGEX = ^https?://(www\.)?imgur.com/(\S+)/?$`
(case-insensitive; note the unescaped `.` in `imgur.com`, which matches any
character except a newline).  Returns capture group 2 — sliced from the
original string — when the pattern matches; group 2 (`(\S+)` followed by a
greedy `/?$`) captures the entire remainder, which must be a non-empty
whitespace-free run. -/
def imgur_capture (s : String) : Option String :=
  let orig := s.toList
  let low := lowerChars orig
  let group2 := fun (rest : List Char) =>
    if !rest.isEmpty && rest.all (fun c => !c.isWhitespace) then
      some (String.mk (orig.drop (orig.length - rest.length)))
    else none
  let finish := fun (cs : List Char) =>
    match dropLit "imgur".toList cs with
    | some (c :: cs2) =>
      if c ≠ '\n' then
        match dropLit "com/".toList cs2 with
        | some rest => group2 rest
        | none => none
      else none
    | _ => none
  match dropScheme low with
  | none => none
  | some cs1 =>
    match dropLit "www.".toList cs1 with
    | some r =>
      match finish r with
      | some g => some g
      | none => finish cs1
    | none => finish cs1

/-- The `\.gif` literal of `TENOR_ASSET_URL`. -/
def gifLit : List Char := ['.', 'g', 'i', 'f']

/-- Match `TENOR_ASSET_URL`'s body `\S+/\S+\.gif/?` against the start of the
(lowercased) remainder `cs` after `c.tenor.com/`; returns the matched
length.  The whole match lies inside the maximal non-whitespace run `R`.
Greedy backtracking picks the last viable `/` separator, then the last
`.gif` after it, then extends over a trailing `/` when present. -/
def tenorAssetBody (cs : List Char) : Option Nat :=
  let R := cs.takeWhile (fun c => !c.isWhitespace)
  let gifs := (List.range R.length).filter
    (fun q => gifLit.isPrefixOf (R.drop q))
  let slashes := (List.range R.length).filter
    (fun i => R.get? i = some '/' && 1 ≤ i && gifs.any (fun q => i + 2 ≤ q))
  match slashes.getLast? with
  | none => none
  | some i =>
    match (gifs.filter (fun q => i + 2 ≤ q)).getLast? with
    | none => none
    | some q =>
      let e := q + 4
      some (if R.get? e = some '/' then e + 1 else e)

/-- Match `TENOR_ASSET_URL = https?://(www\.)?c\.tenor\.com/\S+/\S+\.gif/?`
at the start of the (lowercased) suffix `low`; returns the total matched
length. -/
def tenorAssetMatchLen (low : List Char) : Option Nat :=
  match dropScheme low with
  | none => none
  | some cs1 =>
    let tryFrom := fun (cs : List Char) =>
      match dropLit "c.tenor.com/".toList cs with
      | some cs2 =>
        match tenorAssetBody cs2 with
        | some m => some (low.length - cs2.length + m)
        | none => none
      | none => none
    match dropLit "www.".toList cs1 with
    | some r =>
      match tryFrom r with
      | some n => some n
      | none => tryFrom cs1
    | none => tryFrom cs1

/-- Embeds `TENOR_ASSET_URL.find(text)`: the leftmost match, sliced from the
original text. -/
def tenor_asset_find (text : String) : Option String :=
  let orig := text.toList
  let low := lowerChars orig
  (List.range (low.length + 1)).findSome? (fun p =>
    (tenorAssetMatchLen (low.drop p)).map (fun n =>
      String.mk ((orig.drop p).take n)))

/-! ### `ImageResolver` methods -/

/-- Embeds `ImageResolver::resolve_url`: trim the argument, GET it (a
transport error becomes `FetchUrlError` here), then: an `image/*` response
is size-checked against `max_size` (`max(content_length, body len)`, reject
when it reaches the ceiling); a tenor view page is scanned for the first
CDN asset URL which is fetched via `url_to_bytes`; an imgur page id is
rewritten to `https://i.imgur.com/{id}.gif` and fetched via `url_to_bytes`;
anything else is `InvalidContentType`; a non-success status is
`FetchUrlError`. -/
def ImageResolver.resolve_url (env : Env) (self : ImageResolver)
    (arg : String) : Except Error Bytes :=
  let arg := trim_url_arg arg
  match env.fetch arg with
  | none => .error .FetchUrlError
  | some response =>
    if response.success then
      if starts_with ((response.contentType).getD "unknown") "image/" then
        let contentLength := (response.contentLength).getD 0
        let size := max contentLength response.body.len
        if size ≥ self.maxSize then
          .error (.ImageTooLarge size self.maxSize)
        else
          .ok response.body
      else if tenor_page_match arg then
        match tenor_asset_find response.text with
        | some asset => url_to_bytes env asset
        | none => .error .InvalidContentType
      else
        match imgur_capture arg with
        | some imgurId =>
          url_to_bytes env ("https://i.imgur.com/" ++ imgurId ++ ".gif")
        | none => .error .InvalidContentType
    else
      .error .FetchUrlError

/-- Embeds `ImageResolver::get_file_image`: walk the attachments; the first
one whose content type starts with `image/` is decisive — reject with
`ImageTooLarge` if its declared size is not below `max_size`, otherwise
download it (a download error propagates) and reject with `ImageTooLarge`
if the downloaded length is not below `max_size`; non-image attachments are
skipped; none found means `Ok(None)`. -/
def ImageResolver.get_file_image (self : ImageResolver) :
    List Attachment → Except Error (Option Bytes)
  | [] => .ok none
  | file :: rest =>
    if starts_with ((file.contentType).getD "unknown") "image/" then
      if file.size < self.maxSize then
        match file.download with
        | .error e => .error e
        | .ok bytes =>
          if bytes.len < self.maxSize then
            .ok (some bytes)
          else
            .error (.ImageTooLarge bytes.len self.maxSize)
      else
        .error (.ImageTooLarge file.size self.maxSize)
    else
      self.get_file_image rest

/-- Embeds `ImageResolver::get_sticker_image`: the first sticker with an
`image_url()` is fetched via `url_to_bytes` (its error propagates). -/
def ImageResolver.get_sticker_image (env : Env) :
    List StickerItem → Except Error (Option Bytes)
  | [] => .ok none
  | sticker :: rest =>
    match sticker.imageUrl with
    | some url =>
      match url_to_bytes env url with
      | .error e => .error e
      | .ok b => .ok (some b)
    | none => ImageResolver.get_sticker_image env rest

/-- Embeds `ImageResolver::get_embed_image`: the first embed with an image
(or else a thumbnail) is resolved via `resolve_url` (its error
propagates). -/
def ImageResolver.get_embed_image (env : Env) (self : ImageResolver) :
    List Embed → Except Error (Option Bytes)
  | [] => .ok none
  | embed :: rest =>
    match embed.image with
    | some image =>
      match self.resolve_url env image.url with
      | .error e => .error e
      | .ok b => .ok (some b)
    | none =>
      match embed.thumbnail with
      | some thumbnail =>
        match self.resolve_url env thumbnail.url with
        | .error e => .error e
        | .ok b => .ok (some b)
      | none => self.get_embed_image env rest

/-- Embeds `ImageResolver::get_attachments`: files, then (when still
unresolved) stickers, then (when still unresolved) embeds; each stage is
skipped when its list is empty, and every stage error propagates. -/
def ImageResolver.get_attachments (env : Env) (self : ImageResolver)
    (message : Msg) : Except Error (Option Bytes) :=
  let step1 : Except Error (Option Bytes) :=
    if message.attachments.isEmpty then .ok none
    else self.get_file_image message.attachments
  match step1 with
  | .error e => .error e
  | .ok source1 =>
    let step2 : Except Error (Option Bytes) :=
      if source1.isNone && !message.stickerItems.isEmpty then
        ImageResolver.get_sticker_image env message.stickerItems
      else .ok source1
    match step2 with
    | .error e => .error e
    | .ok source2 =>
      if source2.isNone && !message.embeds.isEmpty then
        self.get_embed_image env message.embeds
      else .ok source2

/-- Embeds `ImageResolver::member_avatar_url`: `face()` with `.webp`
replaced by `.gif` when the guild or user avatar hash starts with `a_`,
else `.png`. -/
def ImageResolver.member_avatar_url (member : Member) : String :=
  let isGif := ((member.avatar).or member.userAvatar).elim false
    (fun av => starts_with av "a_")
  replace_all member.face ".webp" (if isGif then ".gif" else ".png")

/-- Embeds `ImageResolver::user_avatar_url`: `face()` with `.webp` replaced
by `.gif` when the avatar hash starts with `a_`, else `.png`. -/
def ImageResolver.user_avatar_url (user : User) : String :=
  let isGif := (user.avatar).elim false (fun av => starts_with av "a_")
  replace_all user.face ".webp" (if isGif then ".gif" else ".png")

/-- The unicode-emoji CDN URL tried by `try_conversions`:
`https://emojicdn.elk.sh/{arg}?style=twitter`. -/
def emojicdn_url (arg : String) : String :=
  "https://emojicdn.elk.sh/" ++ arg ++ "?style=twitter"

/-- Embeds `ImageResolver::try_conversions`, the argument strategy chain:
member conversion, user conversion, custom-emoji conversion (each of these,
when the conversion succeeds, fetches via `url_to_bytes` and propagates the
fetch error through `?`), then `convert_emoji` (its error falls through),
then the unicode-emoji CDN (its error falls through), then `resolve_url`
(an `ImageTooLarge` is re-raised, any other error yields `Ok(None)`). -/
def ImageResolver.try_conversions (env : Env) (self : ImageResolver)
    (guild : Option Nat) (channel : Option Nat) (arg : String) :
    Except Error (Option Bytes) :=
  match env.memberConvert guild channel arg with
  | some out =>
    match url_to_bytes env (ImageResolver.member_avatar_url out) with
    | .error e => .error e
    | .ok b => .ok (some b)
  | none =>
    match env.userConvert guild channel arg with
    | some out =>
      match url_to_bytes env (ImageResolver.user_avatar_url out) with
      | .error e => .error e
      | .ok b => .ok (some b)
    | none =>
      match env.emojiConvert guild channel arg with
      | some out =>
        match url_to_bytes env out.url with
        | .error e => .error e
        | .ok b => .ok (some b)
      | none =>
        match ImageResolver.convert_emoji env arg with
        | .ok out => .ok (some out)
        | .error _ =>
          match url_to_bytes env (emojicdn_url arg) with
          | .ok out => .ok (some out)
          | .error _ =>
            match self.resolve_url env arg with
            | .ok out => .ok (some out)
            | .error (.ImageTooLarge s m) => .error (.ImageTooLarge s m)
            | .error _ => .ok none

/-- Embeds `Result::transpose` as used on `try_conversions`' result:
`Ok(Some(x)) ↦ Some(Ok(x))`, `Ok(None) ↦ None`, `Err(e) ↦ Some(Err(e))`. -/
def resultTranspose (r : Except Error (Option Bytes)) :
    Option (Except Error Bytes) :=
  match r with
  | .ok (some b) => some (.ok b)
  | .ok none => none
  | .error e => some (.error e)

/-- Embeds `WS_REGEX.split(content).next()`: the first `\s+`-delimited
piece, i.e. the (possibly empty) prefix of non-whitespace characters;
`split` always yields at least one piece, so this is always `some`. -/
def ws_first_token (content : String) : Option String :=
  some (String.mk (content.toList.takeWhile (fun c => !c.isWhitespace)))

/-- The avatar fallback at the end of `resolve`: in a guild, look the
author up as a member (a serenity error propagates) and fetch the member
avatar URL; otherwise fetch the author's user avatar URL. -/
def avatar_fallback (env : Env) (message : Message) : Except Error Bytes :=
  match message.msg.guildId with
  | some guild =>
    match env.guildMember guild message.author.id with
    | none => .error .SerenityError
    | some m => url_to_bytes env (ImageResolver.member_avatar_url m)
  | none => url_to_bytes env (ImageResolver.user_avatar_url message.author)

/-- The tail of `resolve` from the referenced-message step on: the
referenced message's attachments/stickers/embeds, then — when the
referenced content is non-empty — `try_conversions` on its first
whitespace-delimited token, then the avatar fallback. -/
def ImageResolver.resolve_referenced (env : Env) (self : ImageResolver)
    (message : Message) : Except Error Bytes × ImageResolver :=
  match message.referencedMessage with
  | some referenced =>
    match ImageResolver.get_attachments env self referenced with
    | .error e => (.error e, self)
    | .ok (some bytes) => (.ok bytes, self)
    | .ok none =>
      if referenced.content.isEmpty then
        (avatar_fallback env message, self)
      else
        match ws_first_token referenced.content with
        | some content =>
          match resultTranspose (self.try_conversions env
              referenced.guildId (some referenced.channelId) content) with
          | some r => (r, self)
          | none => (avatar_fallback env message, self)
        | none => (avatar_fallback env message, self)
  | none => (avatar_fallback env message, self)

/-- The tail of `resolve` after the argument step: the invoking message's
attachments/stickers/embeds (an error propagates through `?`), then the
referenced-message step. -/
def ImageResolver.resolve_after_arg (env : Env) (self : ImageResolver)
    (message : Message) : Except Error Bytes × ImageResolver :=
  match ImageResolver.get_attachments env self message.msg with
  | .error e => (.error e, self)
  | .ok (some bytes) => (.ok bytes, self)
  | .ok none => ImageResolver.resolve_referenced env self message

/-- Embeds `ImageResolver::resolve` (the early-`return` control flow is
split into the `resolve_after_arg` / `resolve_referenced` /
`avatar_fallback` continuations above).  Returns the result together with
the updated resolver state (`arg_resolved` is cleared when an argument was
supplied but every argument conversion fell through). -/
def ImageResolver.resolve (env : Env) (self : ImageResolver)
    (message : Message) (arg : Option String) :
    Except Error Bytes × ImageResolver :=
  match arg with
  | some a =>
    match resultTranspose (self.try_conversions env message.msg.guildId
        (some message.msg.channelId) a) with
    | some r => (r, self)
    | none =>
      ImageResolver.resolve_after_arg env { self with argResolved := false }
        message
  | none => ImageResolver.resolve_after_arg env self message

/-! ### Frame pipeline (`imaging.rs`, `functions.rs`)

Frames are modelled by their dimensions, delay/disposal metadata and an
opaque pixel-content tag; the `ril` decode and encode calls are external
collaborators and enter as oracle parameters.  `Frame::resize` updates the
dimensions and keeps delay/disposal (the Lanczos resampling of the pixel
buffer is external and leaves the opaque content tag unchanged). -/

/-- A single frame: dimensions, GIF metadata, opaque pixel content. -/
structure Frame where
  width : Nat
  height : Nat
  delay : Nat
  disposal : Nat
  content : Nat
deriving DecidableEq, Repr

/-- `Frame::resize(w, h, Lanczos3)`: dimensions change, metadata stays. -/
def Frame.resize (f : Frame) (w h : Nat) : Frame :=
  { f with width := w, height := h }

/-- `ImageSequence<Rgba>` (the `Frames` alias of `imaging.rs`): an ordered
frame list plus the infinite-loop flag set by `looped_infinitely` (a fresh
`ImageSequence::new()` does not loop). -/
structure ImageSequence where
  frames : List Frame
  loopInfinite : Bool
deriving DecidableEq, Repr

/-- `ImageSequence::len()`. -/
def ImageSequence.len (s : ImageSequence) : Nat :=
  s.frames.length

/-- `ImageSequence::first_frame()`. -/
def ImageSequence.first_frame (s : ImageSequence) : Option Frame :=
  s.frames.head?

/-- `ImageSequence::looped_infinitely()`. -/
def ImageSequence.looped_infinitely (s : ImageSequence) : ImageSequence :=
  { s with loopInfinite := true }

/-- The `ImageArguments` wrapper from `imaging.rs`: input frames plus the
extra arguments passed to the image function. -/
structure ImageArguments (α : Type) where
  frames : ImageSequence
  arguments : List α

/-- Ceiling of `a / b` on naturals; embeds `((x / y) * z).ceil()` where the
`f64` quotient is exact rational division (see the file header). -/
def ceilDivNat (a b : Nat) : Nat :=
  (a + b - 1) / b

/-- Embeds `contain_size` from `functions.rs`: no cap set, or an empty
sequence, returns the input unchanged; otherwise the target width/height
are the given caps, each defaulting to the aspect-ratio value derived from
the first frame (ceiling-rounded); when the first frame's width meets or
exceeds the target width OR its height meets or exceeds the target height,
every frame is resized to the target into a fresh (non-looping) sequence;
otherwise the input is returned unchanged. -/
def contain_size (data : ImageArguments Unit) (width height : Option Nat) :
    Except Error ImageSequence :=
  let frames := data.frames
  if width.isNone && height.isNone then
    .ok frames
  else
    match frames.first_frame with
    | none => .ok frames
    | some first =>
      let w := first.width
      let h := first.height
      let resolvedWidth :=
        match width with
        | some wv => wv
        | none =>
          match height with
          | some hv => ceilDivNat (hv * w) h
          | none => w
      let resolvedHeight :=
        match height with
        | some hv => hv
        | none =>
          match width with
          | some wv => ceilDivNat (wv * h) w
          | none => h
      if w ≥ resolvedWidth || h ≥ resolvedHeight then
        .ok { frames := frames.frames.map
                (fun f => f.resize resolvedWidth resolvedHeight),
              loopInfinite := false }
      else
        .ok frames

/-- The output image format chosen by `ImageExecutor::run`. -/
inductive ImageFormat where
  | Gif
  | Png
deriving DecidableEq, Repr

/-- `DEFAULT_MAX_DIM` from `imaging.rs`. -/
def DEFAULT_MAX_DIM : Nat := 500

/-- `DEFAULT_MAX_FRAMES` from `imaging.rs`. -/
def DEFAULT_MAX_FRAMES : Nat := 200

/-- The `ImageExecutor` configuration (the `ctx`/`message` handles are
external and irrelevant to the pipeline semantics). -/
structure ImageExecutor (α : Type) where
  function : Option (ImageArguments α → Except Error ImageSequence)
  max_width : Option Nat
  max_height : Option Nat
  max_frames : Option Nat
  arguments : List α

/-- `ImageExecutor::new`: no function yet, no width cap, height cap
`DEFAULT_MAX_DIM`, frame cap `DEFAULT_MAX_FRAMES`, no arguments. -/
def ImageExecutor.new {α : Type} : ImageExecutor α :=
  { function := none
    max_width := none
    max_height := some DEFAULT_MAX_DIM
    max_frames := some DEFAULT_MAX_FRAMES
    arguments := [] }

/-- Embeds the closure inside `ImageExecutor::run`'s `spawn_blocking`:
decode the bytes (decode errors propagate), reject with `TooManyFrames`
when the frame count exceeds the cap (before any resizing and before the
transform), apply `contain_size`, run the configured image function, mark
the result as looping infinitely, choose the GIF encoder iff the resulting
frame count exceeds 1, and encode.  `decode` embeds
`ImageSequence::from_bytes_inferred(...)?.into_sequence()?` and `encode`
embeds `sequence.encode(format, &mut bytes)?` (both `ril` collaborators);
`hf` witnesses that the `function(f)` builder was called (the Rust code
panics via `expect` otherwise). -/
def ImageExecutor.run {α : Type}
    (decode : Bytes → Except Error ImageSequence)
    (encode : ImageFormat → ImageSequence → Except Error Nat)
    (self : ImageExecutor α) (hf : (self.function).isSome)
    (bytes : Bytes) : Except Error (Nat × Bool) :=
  match decode bytes with
  | .error e => .error e
  | .ok image =>
    let maxFrames := (self.max_frames).getD DEFAULT_MAX_FRAMES
    if image.len > maxFrames then
      .error (.TooManyFrames image.len maxFrames)
    else
      match contain_size { frames := image, arguments := [] }
          self.max_width self.max_height with
      | .error e => .error e
      | .ok image2 =>
        match (self.function).get hf
            { frames := image2, arguments := self.arguments } with
        | .error e => .error e
        | .ok sequence =>
          let sequence := sequence.looped_infinitely
          let isGif : Bool := if sequence.len > 1 then true else false
          let format := if isGif then ImageFormat.Gif else ImageFormat.Png
          match encode format sequence with
          | .error e => .error e
          | .ok out => .ok (out, isGif)

/-- The delivery filename built in `send_output`: `output.{gif|png}`
according to `is_gif`. -/
def send_output_filename (isGif : Bool) : String :=
  "output." ++ (if isGif then "gif" else "png")

/-- First `n` elements of the infinite cycle over `orig` (empty when `orig`
is empty), walking a suffix and restarting at the end. -/
def cycleTakeAux (orig : List Frame) : List Frame → Nat → List Frame
  | _, 0 => []
  | [], n + 1 =>
    match orig with
    | [] => []
    | o :: os => o :: cycleTakeAux orig os n
  | x :: xs, n + 1 => x :: cycleTakeAux orig xs n

/-- First `n` elements of `xs.cycle()`. -/
def cycleTake (xs : List Frame) (n : Nat) : List Frame :=
  cycleTakeAux xs xs n

/-- Embeds `process_gif` from `imaging.rs`:
`frames.into_iter().cycle().zip(iterable)`.  Zipping the infinite cycle
against a finite step list keeps exactly `iterable.length` pairs (none when
the frame list is empty, since the cycle of an empty iterator is empty). -/
def process_gif (frames : ImageSequence) (iterable : List Int) :
    List (Frame × Int) :=
  (cycleTake frames.frames iterable.length).zip iterable

/-- Embeds `(0..360).step_by(10)` from `huerotate_func`: the elements of
`0..360` at indices `0, 10, 20, …`, i.e. the multiples of 10 below 360. -/
def huerotate_steps : List Int :=
  ((List.range 360).filter (fun k => k % 10 = 0)).map Int.ofNat

/-- Embeds `huerotate_func` from `functions.rs`, parameterized by the
external `ril` per-frame `hue_rotate` operation: zip the (cycled) input
frames against the degree steps and build a fresh sequence of the rotated
frames. -/
def huerotate_func (hueRotate : Frame → Int → Frame)
    (data : ImageArguments Unit) : Except Error ImageSequence :=
  .ok { frames := (process_gif data.frames huerotate_steps).map
          (fun p => hueRotate p.fst p.snd),
        loopInfinite := false }

/-! ### Strategy-chain reading of `resolve` (for claim C1)

The claim describes `resolve` as an ordered list of strategies where the
first one that yields bytes determines the result and no later strategy is
attempted.  Each strategy has a tri-state outcome: it yields bytes, passes
(falls through), or aborts the chain with an error. -/

/-- Tri-state outcome of one resolution strategy. -/
inductive StratOut where
  | yieldB (b : Bytes)
  | pass
  | abort (e : Error)
deriving DecidableEq

/-- Run an ordered strategy list: the first `yieldB` wins and no later
entry is looked at; `pass` falls through; `abort` stops the chain with its
error; an exhausted list runs the fallback. -/
def spec_chain (fallback : Except Error Bytes) :
    List StratOut → Except Error Bytes
  | [] => fallback
  | .yieldB b :: _ => .ok b
  | .pass :: rest => spec_chain fallback rest
  | .abort e :: _ => .error e

/-- Outcome of a conversion-style strategy whose fetch errors abort. -/
def stratOfFetch (r : Except Error Bytes) : StratOut :=
  match r with
  | .ok b => .yieldB b
  | .error e => .abort e

/-- Outcome of a strategy whose errors fall through. -/
def stratOfFallible (r : Except Error Bytes) : StratOut :=
  match r with
  | .ok b => .yieldB b
  | .error _ => .pass

/-- Outcome of an attachment-stage strategy (`Ok(None)` passes, errors
abort). -/
def stratOfOpt (r : Except Error (Option Bytes)) : StratOut :=
  match r with
  | .ok (some b) => .yieldB b
  | .ok none => .pass
  | .error e => .abort e

/-- The non-mention argument strategies of step 1, in the claim's order:
custom-emoji conversion, emoji-token parse, unicode-emoji CDN, direct
URL. -/
def nonmention_strategies (env : Env) (self : ImageResolver)
    (guild : Option Nat) (channel : Option Nat) (arg : String) :
    List StratOut :=
  [ (match env.emojiConvert guild channel arg with
     | some out => stratOfFetch (url_to_bytes env out.url)
     | none => .pass),
    stratOfFallible (ImageResolver.convert_emoji env arg),
    stratOfFallible (url_to_bytes env (emojicdn_url arg)),
    (match self.resolve_url env arg with
     | .ok b => .yieldB b
     | .error (.ImageTooLarge s m) => .abort (.ImageTooLarge s m)
     | .error _ => .pass) ]

/-- All argument strategies of step 1, in the claim's order: member
conversion, user conversion, then the non-mention strategies. -/
def conversion_strategies (env : Env) (self : ImageResolver)
    (guild : Option Nat) (channel : Option Nat) (arg : String) :
    List StratOut :=
  [ (match env.memberConvert guild channel arg with
     | some out =>
       stratOfFetch (url_to_bytes env (ImageResolver.member_avatar_url out))
     | none => .pass),
    (match env.userConvert guild channel arg with
     | some out =>
       stratOfFetch (url_to_bytes env (ImageResolver.user_avatar_url out))
     | none => .pass) ]
  ++ nonmention_strategies env self guild channel arg

/-- The attachment-stage strategies for one message, in the claim's order:
file attachments, stickers, embeds. -/
def attachment_strategies (env : Env) (self : ImageResolver) (m : Msg) :
    List StratOut :=
  [ stratOfOpt (if m.attachments.isEmpty then .ok none
                else self.get_file_image m.attachments),
    stratOfOpt (if m.stickerItems.isEmpty then .ok none
                else ImageResolver.get_sticker_image env m.stickerItems),
    stratOfOpt (if m.embeds.isEmpty then .ok none
                else self.get_embed_image env m.embeds) ]

/-- The strategies applied to the referenced message's first
whitespace-delimited token (guarded by non-empty content), parameterized by
which conversion list is used there. -/
def referenced_token_strategies
    (convs : Env → ImageResolver → Option Nat → Option Nat → String →
      List StratOut)
    (env : Env) (self : ImageResolver) (referenced : Msg) : List StratOut :=
  if referenced.content.isEmpty then []
  else
    match ws_first_token referenced.content with
    | some t =>
      convs env self referenced.guildId (some referenced.channelId) t
    | none => []

/-- Modelled from the spec: the resolution chain exactly as claim C1 states
it — argument conversions (member, user, custom emoji, emoji-token parse,
unicode-emoji CDN, direct URL), the invoking message's
attachments/stickers/embeds, the referenced message's
attachments/stickers/embeds followed by the NON-MENTION step-1 strategies
on the referenced message's first token, and finally the author's
avatar. -/
def spec_resolve_claim (env : Env) (self : ImageResolver)
    (message : Message) (arg : Option String) : Except Error Bytes :=
  spec_chain (avatar_fallback env message)
    ((match arg with
      | some a =>
        conversion_strategies env self message.msg.guildId
          (some message.msg.channelId) a
      | none => [])
     ++ attachment_strategies env self message.msg
     ++ (match message.referencedMessage with
         | some referenced =>
           attachment_strategies env self referenced
           ++ referenced_token_strategies nonmention_strategies env self
                referenced
         | none => []))

/-- The amended resolution chain: identical to `spec_resolve_claim` except
that ALL step-1 strategies (member and user conversion included) are
applied to the referenced message's first token. -/
def spec_resolve_amended (env : Env) (self : ImageResolver)
    (message : Message) (arg : Option String) : Except Error Bytes :=
  spec_chain (avatar_fallback env message)
    ((match arg with
      | some a =>
        conversion_strategies env self message.msg.guildId
          (some message.msg.channelId) a
      | none => [])
     ++ attachment_strategies env self message.msg
     ++ (match message.referencedMessage with
         | some referenced =>
           attachment_strategies env self referenced
           ++ referenced_token_strategies conversion_strategies env self
                referenced
         | none => []))

/-! ### Chain lemmas -/

/-- Appending strategy lists composes the chains. -/
theorem spec_chain_append (fallback : Except Error Bytes)
    (xs ys : List StratOut) :
    spec_chain fallback (xs ++ ys) =
      spec_chain (spec_chain fallback ys) xs := by
  induction xs with
  | nil => rfl
  | cons x rest ih =>
    cases x <;> simp [spec_chain, ih]

/-- `resolve_url` ignores the `arg_resolved` flag. -/
theorem resolve_url_flag_irrel (env : Env) (ms : Nat) (b b' : Bool)
    (a : String) :
    ImageResolver.resolve_url env ⟨ms, b⟩ a =
      ImageResolver.resolve_url env ⟨ms, b'⟩ a := rfl

/-- `get_file_image` ignores the `arg_resolved` flag. -/
theorem get_file_image_flag_irrel (ms : Nat) (b b' : Bool)
    (l : List Attachment) :
    ImageResolver.get_file_image ⟨ms, b⟩ l =
      ImageResolver.get_file_image ⟨ms, b'⟩ l := by
  induction l with
  | nil => rfl
  | cons f rest ih =>
    unfold ImageResolver.get_file_image
    simp only [ih]

/-- `get_embed_image` ignores the `arg_resolved` flag. -/
theorem get_embed_image_flag_irrel (env : Env) (ms : Nat) (b b' : Bool)
    (l : List Embed) :
    ImageResolver.get_embed_image env ⟨ms, b⟩ l =
      ImageResolver.get_embed_image env ⟨ms, b'⟩ l := by
  induction l with
  | nil => rfl
  | cons e rest ih =>
    unfold ImageResolver.get_embed_image
    simp only [ih, resolve_url_flag_irrel env ms b b']

/-- `get_attachments` ignores the `arg_resolved` flag. -/
theorem get_attachments_flag_irrel (env : Env) (ms : Nat) (b b' : Bool)
    (m : Msg) :
    ImageResolver.get_attachments env ⟨ms, b⟩ m =
      ImageResolver.get_attachments env ⟨ms, b'⟩ m := by
  unfold ImageResolver.get_attachments
  simp only [get_file_image_flag_irrel ms b b',
    get_embed_image_flag_irrel env ms b b']

/-- The strategy chain of step 1 computes exactly what threading
`try_conversions` through `Result::transpose` computes. -/
theorem try_conversions_chain (env : Env) (self : ImageResolver)
    (g c : Option Nat) (a : String) (fallback : Except Error Bytes) :
    spec_chain fallback (conversion_strategies env self g c a) =
      (match resultTranspose (self.try_conversions env g c a) with
       | some r => r
       | none => fallback) := by
  unfold conversion_strategies nonmention_strategies
    ImageResolver.try_conversions
  cases hm : env.memberConvert g c a with
  | some m =>
    cases hf : url_to_bytes env (ImageResolver.member_avatar_url m) <;>
      simp [spec_chain, stratOfFetch, resultTranspose, hf]
  | none =>
    cases hu : env.userConvert g c a with
    | some u =>
      cases hf : url_to_bytes env (ImageResolver.user_avatar_url u) <;>
        simp [spec_chain, stratOfFetch, resultTranspose, hf]
    | none =>
      cases he : env.emojiConvert g c a with
      | some eo =>
        cases hf : url_to_bytes env eo.url <;>
          simp [spec_chain, stratOfFetch, resultTranspose, hf]
      | none =>
        cases hc : ImageResolver.convert_emoji env a with
        | ok b => simp [spec_chain, stratOfFallible, resultTranspose, hc]
        | error e1 =>
          cases hcdn : url_to_bytes env (emojicdn_url a) with
          | ok b =>
            simp [spec_chain, stratOfFallible, resultTranspose, hc, hcdn]
          | error e2 =>
            cases hr : self.resolve_url env a with
            | ok b =>
              simp [spec_chain, stratOfFallible, resultTranspose, hc, hcdn,
                hr]
            | error e3 =>
              cases e3 <;>
                simp [spec_chain, stratOfFallible, resultTranspose, hc,
                  hcdn, hr]

/-- The attachment-stage strategy chain computes exactly what
`get_attachments` computes. -/
theorem get_attachments_chain (env : Env) (self : ImageResolver) (m : Msg)
    (fallback : Except Error Bytes) :
    spec_chain fallback (attachment_strategies env self m) =
      (match ImageResolver.get_attachments env self m with
       | .error e => .error e
       | .ok (some b) => .ok b
       | .ok none => fallback) := by
  unfold attachment_strategies ImageResolver.get_attachments
  cases hA : (if m.attachments.isEmpty then (.ok none : Except Error (Option Bytes))
      else self.get_file_image m.attachments) with
  | error e => simp [spec_chain, stratOfOpt]
  | ok source1 =>
    cases source1 with
    | some b => simp [spec_chain, stratOfOpt]
    | none =>
      simp only [spec_chain, stratOfOpt, Option.isNone]
      cases hS : (if m.stickerItems.isEmpty then (.ok none : Except Error (Option Bytes))
          else ImageResolver.get_sticker_image env m.stickerItems) with
      | error e =>
        cases hSe : m.stickerItems.isEmpty <;> simp_all [spec_chain, stratOfOpt]
      | ok source2 =>
        cases source2 with
        | some b =>
          cases hSe : m.stickerItems.isEmpty <;> simp_all [spec_chain, stratOfOpt]
        | none =>
          cases hE : ImageResolver.get_embed_image env self m.embeds with
          | error e =>
            cases hSe : m.stickerItems.isEmpty <;>
              cases hEe : m.embeds.isEmpty <;>
                simp_all [spec_chain, stratOfOpt]
          | ok source3 =>
            cases source3 <;>
              cases hSe : m.stickerItems.isEmpty <;>
                cases hEe : m.embeds.isEmpty <;>
                  simp_all [spec_chain, stratOfOpt]

/-- `try_conversions` ignores the `arg_resolved` flag. -/
theorem try_conversions_flag_irrel (env : Env) (ms : Nat) (b b' : Bool)
    (g c : Option Nat) (a : String) :
    ImageResolver.try_conversions env ⟨ms, b⟩ g c a =
      ImageResolver.try_conversions env ⟨ms, b'⟩ g c a := by
  unfold ImageResolver.try_conversions
  rw [resolve_url_flag_irrel env ms b b']

/-- The non-mention strategy list ignores the `arg_resolved` flag. -/
theorem nonmention_strategies_flag_irrel (env : Env) (ms : Nat)
    (b b' : Bool) (g c : Option Nat) (a : String) :
    nonmention_strategies env ⟨ms, b⟩ g c a =
      nonmention_strategies env ⟨ms, b'⟩ g c a := by
  unfold nonmention_strategies
  rw [resolve_url_flag_irrel env ms b b']

/-- The full conversion strategy list ignores the `arg_resolved` flag. -/
theorem conversion_strategies_flag_irrel (env : Env) (ms : Nat)
    (b b' : Bool) (g c : Option Nat) (a : String) :
    conversion_strategies env ⟨ms, b⟩ g c a =
      conversion_strategies env ⟨ms, b'⟩ g c a := by
  unfold conversion_strategies
  rw [nonmention_strategies_flag_irrel env ms b b']

/-- The attachment-stage strategy list ignores the `arg_resolved` flag. -/
theorem attachment_strategies_flag_irrel (env : Env) (ms : Nat)
    (b b' : Bool) (m : Msg) :
    attachment_strategies env ⟨ms, b⟩ m =
      attachment_strategies env ⟨ms, b'⟩ m := by
  unfold attachment_strategies
  rw [get_file_image_flag_irrel ms b b', get_embed_image_flag_irrel env ms b b']

/-- The referenced-message strategy block ignores the `arg_resolved`
flag. -/
theorem ref_part_flag_irrel (env : Env) (ms : Nat) (b b' : Bool)
    (message : Message) :
    (match message.referencedMessage with
     | some referenced =>
       attachment_strategies env ⟨ms, b⟩ referenced
       ++ referenced_token_strategies conversion_strategies env ⟨ms, b⟩
            referenced
     | none => []) =
    (match message.referencedMessage with
     | some referenced =>
       attachment_strategies env ⟨ms, b'⟩ referenced
       ++ referenced_token_strategies conversion_strategies env ⟨ms, b'⟩
            referenced
     | none => []) := by
  cases message.referencedMessage with
  | none => rfl
  | some referenced =>
    simp only [referenced_token_strategies,
      attachment_strategies_flag_irrel env ms b b',
      conversion_strategies_flag_irrel env ms b b']

/-- `resolve_referenced` computes the referenced-message strategy block
followed by the avatar fallback. -/
theorem resolve_referenced_chain (env : Env) (self : ImageResolver)
    (message : Message) :
    (ImageResolver.resolve_referenced env self message).fst =
      spec_chain (avatar_fallback env message)
        (match message.referencedMessage with
         | some referenced =>
           attachment_strategies env self referenced
           ++ referenced_token_strategies conversion_strategies env self
                referenced
         | none => []) := by
  unfold ImageResolver.resolve_referenced
  cases hR : message.referencedMessage with
  | none => simp [spec_chain]
  | some referenced =>
    rw [spec_chain_append, get_attachments_chain]
    cases hGA : ImageResolver.get_attachments env self referenced with
    | error e => simp [hGA]
    | ok s =>
      cases s with
      | some b => simp [hGA]
      | none =>
        simp only [hGA]
        unfold referenced_token_strategies
        cases hC : referenced.content.isEmpty with
        | true => simp [hC, spec_chain]
        | false =>
          simp only [hC, Bool.false_eq_true, if_false, ws_first_token,
            try_conversions_chain]
          cases hT : resultTranspose (self.try_conversions env
              referenced.guildId (some referenced.channelId)
              (String.mk (referenced.content.toList.takeWhile
                (fun c => !c.isWhitespace)))) with
          | some r => simp [hT]
          | none => simp [hT]

/-- `resolve_after_arg` computes the attachment stage of the invoking
message, then the referenced block, then the avatar fallback. -/
theorem resolve_after_arg_chain (env : Env) (self : ImageResolver)
    (message : Message) :
    (ImageResolver.resolve_after_arg env self message).fst =
      spec_chain (avatar_fallback env message)
        (attachment_strategies env self message.msg
         ++ (match message.referencedMessage with
             | some referenced =>
               attachment_strategies env self referenced
               ++ referenced_token_strategies conversion_strategies env self
                    referenced
             | none => [])) := by
  unfold ImageResolver.resolve_after_arg
  rw [spec_chain_append, get_attachments_chain]
  cases hGA : ImageResolver.get_attachments env self message.msg with
  | error e => simp [hGA]
  | ok s =>
    cases s with
    | some b => simp [hGA]
    | none => simpa [hGA] using resolve_referenced_chain env self message

/-- C1: `ImageResolver::resolve` tries strategies in the fixed order —
argument conversions (member, user, custom emoji, emoji-token parse,
unicode-emoji CDN, direct URL), then the invoking message's attachments,
stickers and embeds, then — if a referenced message exists — that message's
attachments/stickers/embeds followed by ALL of step 1's strategies (member
and user conversion included, amended from the claim's "non-mention
strategies") applied to the referenced message's first whitespace-delimited
token (only when the referenced content is non-empty), and finally the
author's avatar; the first strategy that yields bytes determines the result
and no later strategy is attempted. -/
theorem resolve_strategy_order (env : Env) (self : ImageResolver)
    (message : Message) (arg : Option String) :
    (ImageResolver.resolve env self message arg).fst =
      spec_resolve_amended env self message arg := by
  obtain ⟨ms, bflag⟩ := self
  unfold ImageResolver.resolve spec_resolve_amended
  cases arg with
  | none =>
    simp only [List.nil_append]
    rw [resolve_after_arg_chain]
  | some a =>
    simp only []
    rw [spec_chain_append, spec_chain_append, try_conversions_chain]
    cases hT : resultTranspose (ImageResolver.try_conversions env
        ⟨ms, bflag⟩ message.msg.guildId (some message.msg.channelId) a) with
    | some r => simp [hT]
    | none =>
      simp only [hT]
      rw [resolve_after_arg_chain, spec_chain_append]
      cases hR : message.referencedMessage with
      | none =>
        simp [hR, attachment_strategies_flag_irrel env ms false bflag]
      | some referenced =>
        simp [hR, attachment_strategies_flag_irrel env ms false bflag,
          referenced_token_strategies,
          conversion_strategies_flag_irrel env ms false bflag]

/-! ### Concrete gadgets refuting claim C1's "non-mention" reading -/

/-- Bytes served for the member avatar resolved from the referenced
message's first token. -/
def bytesMemberC1 : Bytes := ⟨1, 10⟩

/-- Bytes served for the invoking author's avatar. -/
def bytesAvatarC1 : Bytes := ⟨2, 10⟩

/-- A successful `image/png` response carrying `b`. -/
def imageRespOf (b : Bytes) : Response :=
  { success := true
    contentType := some "image/png"
    contentLength := some b.len
    body := b
    text := "" }

/-- The member that `Member::convert` finds for the token `bob`. -/
def memberBobC1 : Member := ⟨none, none, "mface.webp"⟩

/-- The invoking author. -/
def authorC1 : User := ⟨42, none, "uface.webp"⟩

/-- Environment: the referenced token `bob` converts to a member whose
avatar fetch succeeds; the author's avatar fetch succeeds; everything else
fails or is absent. -/
def envC1 : Env :=
  { fetch := fun url =>
      if url = "mface.png" then some (imageRespOf bytesMemberC1)
      else if url = "uface.png" then some (imageRespOf bytesAvatarC1)
      else none
    memberConvert := fun _ _ a =>
      if a = "bob" then some memberBobC1 else none
    userConvert := fun _ _ _ => none
    emojiConvert := fun _ _ _ => none
    guildMember := fun _ _ => none }

/-- Invoking message: empty, not in a guild, replying to a message whose
content is `bob`. -/
def msgC1 : Message :=
  { msg := ⟨[], [], [], "", none, 7⟩
    referencedMessage := some ⟨[], [], [], "bob", none, 7⟩
    author := authorC1 }

/-- C1 counterexample: with no argument, empty attachments everywhere and a
referenced message whose content is the token `bob`, the code resolves the
member found for `bob` (a mention strategy applied to the referenced
token), while the claim's chain — which applies only the non-mention
strategies to the referenced token — falls through to the author's avatar;
the two results differ, so the claim as stated is false. -/
theorem resolve_strategy_order_counterexample :
    (ImageResolver.resolve envC1 ImageResolver.new msgC1 none).fst =
      .ok bytesMemberC1
    ∧ spec_resolve_claim envC1 ImageResolver.new msgC1 none =
      .ok bytesAvatarC1
    ∧ bytesMemberC1 ≠ bytesAvatarC1 :=
  ⟨rfl, rfl, by decide⟩

/-! ### Claim C2: error fallthrough policy -/

/-- C2 (amended): `ImageTooLarge` raised for a candidate aborts resolution
immediately, but `FetchUrlError` falls through only within the
emoji-token-parse / unicode-CDN / direct-URL argument sub-strategies:
(a) a fetch error (any error, `FetchUrlError` included) for a successfully
converted member's avatar propagates out of `try_conversions` instead of
falling through to the next strategy; (b) an `ImageTooLarge` from the
direct-URL strategy aborts `try_conversions`; (c) a `FetchUrlError` from
the direct-URL strategy falls through (yielding `Ok(None)`); (d) any error
of the attachment/sticker/embed stage (an `ImageTooLarge` from
`get_file_image` included) aborts `resolve` entirely. -/
theorem resolve_error_policy :
    (∀ (env : Env) (self : ImageResolver) (g c : Option Nat) (a : String)
        (m : Member) (e : Error),
      env.memberConvert g c a = some m →
      url_to_bytes env (ImageResolver.member_avatar_url m) = .error e →
      self.try_conversions env g c a = .error e)
    ∧ (∀ (env : Env) (self : ImageResolver) (g c : Option Nat) (a : String)
        (s mm : Nat) (e1 e2 : Error),
      env.memberConvert g c a = none →
      env.userConvert g c a = none →
      env.emojiConvert g c a = none →
      ImageResolver.convert_emoji env a = .error e1 →
      url_to_bytes env (emojicdn_url a) = .error e2 →
      self.resolve_url env a = .error (.ImageTooLarge s mm) →
      self.try_conversions env g c a = .error (.ImageTooLarge s mm))
    ∧ (∀ (env : Env) (self : ImageResolver) (g c : Option Nat) (a : String)
        (e1 e2 : Error),
      env.memberConvert g c a = none →
      env.userConvert g c a = none →
      env.emojiConvert g c a = none →
      ImageResolver.convert_emoji env a = .error e1 →
      url_to_bytes env (emojicdn_url a) = .error e2 →
      self.resolve_url env a = .error .FetchUrlError →
      self.try_conversions env g c a = .ok none)
    ∧ (∀ (env : Env) (self : ImageResolver) (message : Message) (e : Error),
      ImageResolver.get_attachments env self message.msg = .error e →
      (ImageResolver.resolve env self message none).fst = .error e) := by
  refine ⟨?_, ?_, ?_, ?_⟩
  · intro env self g c a m e hm hf
    unfold ImageResolver.try_conversions
    simp [hm, hf]
  · intro env self g c a s mm e1 e2 hm hu he hc hcdn hr
    unfold ImageResolver.try_conversions
    simp [hm, hu, he, hc, hcdn, hr]
  · intro env self g c a e1 e2 hm hu he hc hcdn hr
    unfold ImageResolver.try_conversions
    simp [hm, hu, he, hc, hcdn, hr]
  · intro env self message e h
    unfold ImageResolver.resolve ImageResolver.resolve_after_arg
    simp [h]

/-! Concrete gadgets for claim C2. -/

/-- Bytes the author-avatar fallback would deliver in the C2 scenario. -/
def bytesAvatarC2 : Bytes := ⟨3, 10⟩

/-- The member found for the argument `bob` in the C2 scenario. -/
def memberBobC2 : Member := ⟨none, none, "mface.webp"⟩

/-- Environment: the argument `bob` converts to a member, but the member's
avatar fetch answers with a non-success status (`FetchUrlError`); the
author's avatar fetch would succeed. -/
def envC2 : Env :=
  { fetch := fun url =>
      if url = "mface.png" then
        some { success := false
               contentType := none
               contentLength := none
               body := ⟨0, 0⟩
               text := "" }
      else if url = "uface.png" then some (imageRespOf bytesAvatarC2)
      else none
    memberConvert := fun _ _ a =>
      if a = "bob" then some memberBobC2 else none
    userConvert := fun _ _ _ => none
    emojiConvert := fun _ _ _ => none
    guildMember := fun _ _ => none }

/-- Invoking message for the C2 counterexample: empty, no reference, not in
a guild. -/
def msgC2 : Message :=
  { msg := ⟨[], [], [], "", none, 7⟩
    referencedMessage := none
    author := ⟨42, none, "uface.webp"⟩ }

/-- C2 counterexample: the argument `bob` converts to a member whose avatar
fetch fails with `FetchUrlError`, and resolution aborts with that error
even though the author's-avatar candidate (a later candidate in the chain)
would succeed — so the claim "a FetchUrlError raised for a candidate is
swallowed and resolution falls through to the next candidate" is false as
stated. -/
theorem resolve_error_policy_counterexample :
    (ImageResolver.resolve envC2 ImageResolver.new msgC2
        (some "bob")).fst = .error .FetchUrlError
    ∧ url_to_bytes envC2 (ImageResolver.user_avatar_url msgC2.author) =
      .ok bytesAvatarC2 :=
  ⟨rfl, rfl⟩

/-! Gadgets witnessing the amended C2 theorem. -/

/-- Environment for the C2 witness: no conversions apply, the unicode CDN
is unreachable, and the direct-URL fetch answers an `image/png` of
20,000,000 bytes. -/
def envC2w : Env :=
  { fetch := fun url =>
      if url = "http://big" then some (imageRespOf ⟨9, 20000000⟩)
      else none
    memberConvert := fun _ _ _ => none
    userConvert := fun _ _ _ => none
    emojiConvert := fun _ _ _ => none
    guildMember := fun _ _ => none }

/-- Witness for the amended C2 theorem: with the default 16,000,000 cap, a
20,000,000-byte direct-URL candidate aborts `try_conversions` with
`ImageTooLarge`. -/
theorem resolve_error_policy_witness :
    ImageResolver.try_conversions envC2w ImageResolver.new none none
      "http://big" = .error (.ImageTooLarge 20000000 16000000) :=
  resolve_error_policy.2.1 envC2w ImageResolver.new none none "http://big"
    20000000 16000000 (.EmojiParseError "http://big") .RequestError
    rfl rfl rfl rfl rfl rfl

/-! ### Claims C3 and C6: pipeline frame cap and output format -/

/-- C3: when the decoded sequence has more frames than the configured cap
(default `DEFAULT_MAX_FRAMES = 200`), `run` fails with
`TooManyFrames(actual, cap)`; the failure is decided before any resizing
and before the transform — the result is unchanged under any other
executor configuration (function, width/height caps, arguments) with the
same frame cap. -/
theorem run_rejects_too_many_frames {α : Type}
    (decode : Bytes → Except Error ImageSequence)
    (encode : ImageFormat → ImageSequence → Except Error Nat)
    (self : ImageExecutor α) (hf : (self.function).isSome)
    (bytes : Bytes) (frames : ImageSequence)
    (hdec : decode bytes = .ok frames)
    (hbig : frames.len > (self.max_frames).getD DEFAULT_MAX_FRAMES) :
    ImageExecutor.run decode encode self hf bytes =
      .error (.TooManyFrames frames.len
        ((self.max_frames).getD DEFAULT_MAX_FRAMES))
    ∧ DEFAULT_MAX_FRAMES = 200
    ∧ (ImageExecutor.new : ImageExecutor α).max_frames =
        some DEFAULT_MAX_FRAMES
    ∧ (∀ (self2 : ImageExecutor α) (hf2 : (self2.function).isSome),
        self2.max_frames = self.max_frames →
        ImageExecutor.run decode encode self2 hf2 bytes =
          ImageExecutor.run decode encode self hf bytes) := by
  refine ⟨?_, rfl, rfl, ?_⟩
  · unfold ImageExecutor.run
    simp [hdec, hbig]
  · intro self2 hf2 hmf
    unfold ImageExecutor.run
    simp [hdec, hmf, hbig]

/-- Transform used by the pipeline gadgets: the identity on frames. -/
def idTransform : ImageArguments Unit → Except Error ImageSequence :=
  fun d => .ok d.frames

/-- A 10×10 frame with content tag `k`. -/
def frameTag (k : Nat) : Frame := ⟨10, 10, 0, 0, k⟩

/-- Executor with a frame cap of 3 for the C3 witness. -/
def execC3 : ImageExecutor Unit :=
  { function := some idTransform
    max_width := none
    max_height := none
    max_frames := some 3
    arguments := [] }

/-- Decoder producing five frames for the C3 witness. -/
def decodeC3 : Bytes → Except Error ImageSequence :=
  fun _ => .ok ⟨[frameTag 1, frameTag 2, frameTag 3, frameTag 4,
    frameTag 5], false⟩

/-- Encoder for the pipeline gadgets (encoded output is an opaque tag). -/
def encodeAny : ImageFormat → ImageSequence → Except Error Nat :=
  fun _ _ => .ok 7

/-- Witness for C3: a 5-frame decode against a cap of 3 fails with
`TooManyFrames(5, 3)`. -/
theorem run_rejects_too_many_frames_witness :
    ImageExecutor.run decodeC3 encodeAny execC3 rfl ⟨0, 0⟩ =
      .error (.TooManyFrames 5 3) :=
  (run_rejects_too_many_frames decodeC3 encodeAny execC3 rfl ⟨0, 0⟩
    ⟨[frameTag 1, frameTag 2, frameTag 3, frameTag 4, frameTag 5], false⟩
    rfl (by decide)).1

/-- C6: when the pipeline completes, the reported flag is true exactly when
the post-transform sequence has more than one frame, the GIF encoder is
used in that case (PNG otherwise), and the delivered filename is
`output.gif` when animated and `output.png` otherwise. -/
theorem run_animated_iff_multiframe {α : Type}
    (decode : Bytes → Except Error ImageSequence)
    (encode : ImageFormat → ImageSequence → Except Error Nat)
    (self : ImageExecutor α) (hf : (self.function).isSome)
    (bytes : Bytes) (frames frames2 seq : ImageSequence) (out : Nat)
    (hdec : decode bytes = .ok frames)
    (hsmall : frames.len ≤ (self.max_frames).getD DEFAULT_MAX_FRAMES)
    (hcontain : contain_size { frames := frames, arguments := [] }
      self.max_width self.max_height = .ok frames2)
    (hfun : (self.function).get hf
      { frames := frames2, arguments := self.arguments } = .ok seq)
    (henc : encode (if seq.len > 1 then .Gif else .Png)
      seq.looped_infinitely = .ok out) :
    ImageExecutor.run decode encode self hf bytes =
      .ok (out, if seq.len > 1 then true else false)
    ∧ ((if seq.len > 1 then ImageFormat.Gif else ImageFormat.Png) =
        ImageFormat.Gif ↔ seq.len > 1)
    ∧ send_output_filename (if seq.len > 1 then true else false) =
      (if seq.len > 1 then "output.gif" else "output.png") := by
  refine ⟨?_, ?_, ?_⟩
  · unfold ImageExecutor.run
    have hnot : ¬ frames.len > (self.max_frames).getD DEFAULT_MAX_FRAMES :=
      by omega
    simp only [hdec, hnot, if_false, hcontain, hfun]
    have hlen : (seq.looped_infinitely).len = seq.len := rfl
    by_cases hgif : seq.len > 1
    · simp only [hlen, hgif, if_true] at henc ⊢
      simp [henc]
    · simp only [hlen, hgif, if_false] at henc ⊢
      simp [henc]
  · by_cases hgif : seq.len > 1 <;> simp [hgif]
  · by_cases hgif : seq.len > 1 <;> simp [hgif, send_output_filename]

/-- Transform for the C6 witness: always yields two frames. -/
def twoFrameTransform : ImageArguments Unit → Except Error ImageSequence :=
  fun _ => .ok ⟨[frameTag 1, frameTag 2], false⟩

/-- Executor for the C6 witness: no dimension caps, default-ish frame
cap. -/
def execC6 : ImageExecutor Unit :=
  { function := some twoFrameTransform
    max_width := none
    max_height := none
    max_frames := some 200
    arguments := [] }

/-- Decoder producing one frame for the C6 witness. -/
def decodeC6 : Bytes → Except Error ImageSequence :=
  fun _ => .ok ⟨[frameTag 1], false⟩

/-- Witness for C6: a transform producing two frames makes the pipeline
report the output as animated. -/
theorem run_animated_iff_multiframe_witness :
    ImageExecutor.run decodeC6 encodeAny execC6 rfl ⟨0, 0⟩ = .ok (7, true) :=
  (run_animated_iff_multiframe decodeC6 encodeAny execC6 rfl ⟨0, 0⟩
    ⟨[frameTag 1], false⟩ ⟨[frameTag 1], false⟩
    ⟨[frameTag 1, frameTag 2], false⟩ 7
    rfl (by decide) rfl rfl rfl).1

/-! ### Claim C5: emoji token parsing -/

/-- C5: evaluation of `convert_emoji`'s parse at the claim's inputs.  The
bare-id and failure cases behave as the claim states, but the no-`a` token
`<:name:id>` parses to `animated = true` (not `false`): the regex group
`(a?)` always participates in a match, so `captures.get(1).is_some()` is
`true` for every matching token — the animated flag distinguishes nothing
and a static custom emoji is requested from the CDN as `.gif`.  This
contradicts the code's evident intent (the `(a?)` capture and the
`gif`/`png` branch exist precisely to distinguish animated emojis, and the
bare-id path uses `png`), so it is recorded as a code bug. -/
theorem convert_emoji_parse_eval :
    convert_emoji_parse "<:name:123456789012345678>" =
      (true, some "123456789012345678")
    ∧ convert_emoji_parse "<a:name:123456789012345678>" =
      (true, some "123456789012345678")
    ∧ convert_emoji_parse "123456789012345678" =
      (false, some "123456789012345678")
    ∧ (∀ env : Env, ImageResolver.convert_emoji env "hello" =
        .error (.EmojiParseError "hello"))
    ∧ emoji_cdn_url true "123456789012345678" =
      "https://cdn.discordapp.com/emojis/123456789012345678.gif"
    ∧ emoji_cdn_url false "123456789012345678" =
      "https://cdn.discordapp.com/emojis/123456789012345678.png" :=
  ⟨rfl, rfl, rfl, fun _ => rfl, rfl, rfl⟩

/-! ### Claim C7: the size ceiling boundary -/

/-- The `image/*` branch of `resolve_url`: once the fetch succeeded with an
image content type, the result is decided purely by the size check. -/
theorem resolve_url_image_case (env : Env) (self : ImageResolver)
    (arg : String) (r : Response)
    (hfetch : env.fetch (trim_url_arg arg) = some r)
    (hsucc : r.success = true)
    (hct : starts_with ((r.contentType).getD "unknown") "image/" = true) :
    self.resolve_url env arg =
      (if max ((r.contentLength).getD 0) r.body.len ≥ self.maxSize then
        .error (.ImageTooLarge
          (max ((r.contentLength).getD 0) r.body.len) self.maxSize)
       else .ok r.body) := by
  unfold ImageResolver.resolve_url
  simp only [hfetch, hsucc, hct, if_true]

/-- C7: `resolve_url` rejects an `image/*` candidate with `ImageTooLarge`
exactly when `max(declared content length, downloaded length)` reaches
`max_size`, and accepts it otherwise; `get_file_image` rejects a first
image attachment when the declared or the downloaded size reaches
`max_size`; with the default ceiling (16,000,000) a candidate of exactly
16,000,000 bytes is rejected and any strictly smaller one passes the size
check. -/
theorem size_ceiling_boundary :
    (∀ (env : Env) (self : ImageResolver) (arg : String) (r : Response),
      env.fetch (trim_url_arg arg) = some r →
      r.success = true →
      starts_with ((r.contentType).getD "unknown") "image/" = true →
      self.resolve_url env arg =
        (if max ((r.contentLength).getD 0) r.body.len ≥ self.maxSize then
          .error (.ImageTooLarge
            (max ((r.contentLength).getD 0) r.body.len) self.maxSize)
         else .ok r.body))
    ∧ (∀ (self : ImageResolver) (file : Attachment) (rest : List Attachment),
      starts_with ((file.contentType).getD "unknown") "image/" = true →
      self.get_file_image (file :: rest) =
        (if file.size < self.maxSize then
          (match file.download with
           | .error e => .error e
           | .ok bytes =>
             if bytes.len < self.maxSize then .ok (some bytes)
             else .error (.ImageTooLarge bytes.len self.maxSize))
         else .error (.ImageTooLarge file.size self.maxSize)))
    ∧ ImageResolver.new.maxSize = 16000000
    ∧ (∀ (env : Env) (arg : String) (r : Response),
      env.fetch (trim_url_arg arg) = some r →
      r.success = true →
      starts_with ((r.contentType).getD "unknown") "image/" = true →
      max ((r.contentLength).getD 0) r.body.len = 16000000 →
      ImageResolver.new.resolve_url env arg =
        .error (.ImageTooLarge 16000000 16000000))
    ∧ (∀ (env : Env) (arg : String) (r : Response),
      env.fetch (trim_url_arg arg) = some r →
      r.success = true →
      starts_with ((r.contentType).getD "unknown") "image/" = true →
      max ((r.contentLength).getD 0) r.body.len < 16000000 →
      ImageResolver.new.resolve_url env arg = .ok r.body) := by
  refine ⟨resolve_url_image_case, ?_, rfl, ?_, ?_⟩
  · intro self file rest hct
    unfold ImageResolver.get_file_image
    simp [hct]
  · intro env arg r hfetch hsucc hct hmax
    rw [resolve_url_image_case env ImageResolver.new arg r hfetch hsucc hct,
      hmax]
    rfl
  · intro env arg r hfetch hsucc hct hmax
    rw [resolve_url_image_case env ImageResolver.new arg r hfetch hsucc hct]
    have h2 : ¬ max ((r.contentLength).getD 0) r.body.len ≥
        ImageResolver.new.maxSize := by
      change ¬ _ ≥ 16000000
      omega
    simp [h2]

/-- Environment for the C7 witness: `http://x` answers an `image/png` whose
declared and actual size are both `n`. -/
def envC7 (n : Nat) : Env :=
  { fetch := fun url =>
      if url = "http://x" then some (imageRespOf ⟨4, n⟩)
      else none
    memberConvert := fun _ _ _ => none
    userConvert := fun _ _ _ => none
    emojiConvert := fun _ _ _ => none
    guildMember := fun _ _ => none }

/-- Witness for C7 at the boundary: exactly 16,000,000 bytes is rejected
and 15,999,999 bytes is accepted. -/
theorem size_ceiling_boundary_witness :
    ImageResolver.new.resolve_url (envC7 16000000) "http://x" =
      .error (.ImageTooLarge 16000000 16000000)
    ∧ ImageResolver.new.resolve_url (envC7 15999999) "http://x" =
      .ok ⟨4, 15999999⟩ :=
  ⟨size_ceiling_boundary.2.2.2.1 (envC7 16000000) "http://x"
      (imageRespOf ⟨4, 16000000⟩) rfl rfl rfl (by decide),
    size_ceiling_boundary.2.2.2.2 (envC7 15999999) "http://x"
      (imageRespOf ⟨4, 15999999⟩) rfl rfl rfl (by decide)⟩

/-! ### Claim C9: sources fetched without validation -/

/-- Message for the C9 scenario: a single sticker, nothing else. -/
def msgC9 : Message :=
  { msg := ⟨[], [⟨some "stickerurl"⟩], [], "", none, 7⟩
    referencedMessage := none
    author := ⟨42, none, "uface.webp"⟩ }

/-- Environment for the C9 scenario: the sticker URL answers successfully
with content type `ct` and a body of `n` bytes. -/
def envC9 (n : Nat) (ct : String) : Env :=
  { fetch := fun url =>
      if url = "stickerurl" then
        some { success := true
               contentType := some ct
               contentLength := some n
               body := ⟨5, n⟩
               text := "" }
      else none
    memberConvert := fun _ _ _ => none
    userConvert := fun _ _ _ => none
    emojiConvert := fun _ _ _ => none
    guildMember := fun _ _ => none }

/-- C9: `url_to_bytes` performs no content-type check and no size check —
a successful fetch returns the body whatever its declared type or length;
consequently a sticker candidate of ANY size `n` and ANY content type `ct`
resolves to its `n`-byte body (even when `n` exceeds the 16,000,000
default ceiling), while the very same response served to `resolve_url`
(the direct-URL/embed path) is subject to validation and is rejected. -/
theorem url_to_bytes_unchecked :
    (∀ (env : Env) (url : String) (r : Response),
      env.fetch url = some r → r.success = true →
      url_to_bytes env url = .ok r.body)
    ∧ (∀ (n : Nat) (ct : String),
      (ImageResolver.resolve (envC9 n ct) ImageResolver.new msgC9
        none).fst = .ok ⟨5, n⟩)
    ∧ DEFAULT_MAX_SIZE = 16000000
    ∧ (∀ n : Nat, ImageResolver.new.resolve_url (envC9 n "text/html")
        "stickerurl" = .error .InvalidContentType)
    ∧ (∀ n : Nat, n ≥ 16000000 →
        ImageResolver.new.resolve_url (envC9 n "image/png") "stickerurl" =
          .error (.ImageTooLarge n 16000000)) := by
  refine ⟨?_, ?_, rfl, ?_, ?_⟩
  · intro env url r hfetch hsucc
    unfold url_to_bytes
    rw [hfetch]
    simp [hsucc]
  · intro n ct
    rfl
  · intro n
    rfl
  · intro n hn
    rw [resolve_url_image_case (envC9 n "image/png") ImageResolver.new
      "stickerurl"
      { success := true, contentType := some "image/png",
        contentLength := some n, body := ⟨5, n⟩, text := "" }
      rfl rfl rfl]
    simp only [Option.getD_some, max_self]
    have hms : ImageResolver.new.maxSize = 16000000 := rfl
    rw [hms, if_pos hn]

/-! ### Claim C10: only the first image-typed attachment matters -/

/-- C10 (amended): `get_file_image` is fully determined by the first
attachment whose content type starts with `image/`: attachments with a
non-image or missing content type are skipped, the first image-typed
attachment's outcome is final (the returned bytes, or `ImageTooLarge` when
a size bound is hit, or the download's own error — amended from the
claim's two-way "bytes or ImageTooLarge") and later attachments are never
examined; with no image-typed attachment the result is `Ok(None)`
(fallthrough to stickers). -/
theorem get_file_image_first_image_decides (self : ImageResolver)
    (l : List Attachment) :
    self.get_file_image l =
      (match l.find? (fun a =>
          starts_with ((a.contentType).getD "unknown") "image/") with
       | none => .ok none
       | some file =>
         if file.size < self.maxSize then
           match file.download with
           | .error e => .error e
           | .ok bytes =>
             if bytes.len < self.maxSize then .ok (some bytes)
             else .error (.ImageTooLarge bytes.len self.maxSize)
         else .error (.ImageTooLarge file.size self.maxSize)) := by
  induction l with
  | nil => rfl
  | cons f rest ih =>
    unfold ImageResolver.get_file_image
    cases h : starts_with ((f.contentType).getD "unknown") "image/" with
    | true => simp [List.find?, h]
    | false => simp [List.find?, h, ih]

/-- C10 counterexample: the first image-typed attachment's download fails
with a (wrapped serenity) error; the step fails with that error — neither
bytes nor `ImageTooLarge`, refuting the claim's two-way dichotomy — and
the second, perfectly resolvable image attachment is never reached. -/
theorem get_file_image_dichotomy_counterexample :
    ImageResolver.new.get_file_image
      [{ contentType := some "image/png", size := 10,
         download := .error .SerenityError },
       { contentType := some "image/png", size := 10,
         download := .ok ⟨8, 10⟩ }] = .error .SerenityError
    ∧ (∀ s m : Nat, Error.SerenityError ≠ Error.ImageTooLarge s m) :=
  ⟨rfl, fun _ _ h => Error.noConfusion h⟩

/-- Witness for C9: a successful fetch of a 16,000,001-byte `text/html`
response is returned whole by `url_to_bytes` — no size or content-type
rejection. -/
theorem url_to_bytes_unchecked_witness :
    url_to_bytes (envC9 16000001 "text/html") "stickerurl" =
      .ok ⟨5, 16000001⟩ :=
  url_to_bytes_unchecked.1 (envC9 16000001 "text/html") "stickerurl"
    { success := true, contentType := some "text/html",
      contentLength := some 16000001, body := ⟨5, 16000001⟩, text := "" }
    rfl rfl

/-! ### Claim C4: `contain_size` -/

/-- Ceiling division is monotone in the dividend. -/
theorem ceilDivNat_le_ceilDivNat (a b c : Nat) (h : a ≤ b) :
    ceilDivNat a c ≤ ceilDivNat b c :=
  Nat.div_le_div_right (by omega)

/-- Ceiling division of an exact multiple. -/
theorem ceilDivNat_mul_self (b a : Nat) (hb : 0 < b) :
    ceilDivNat (b * a) b = a := by
  unfold ceilDivNat
  have h1 : b * a + b - 1 = b * a + (b - 1) := by omega
  rw [h1, Nat.mul_add_div hb, Nat.div_eq_of_lt (by omega)]
  omega

/-- When the cap strictly exceeds the source dimension, the derived
aspect-ratio target strictly exceeds the other source dimension (so no
resize triggers). -/
theorem lt_ceilDivNat (cap w0 h0 : Nat) (hw0 : 0 < w0) (hh0 : 0 < h0)
    (h : h0 < cap) : w0 < ceilDivNat (cap * w0) h0 := by
  unfold ceilDivNat
  rw [Nat.lt_iff_add_one_le, Nat.le_div_iff_mul_le hh0]
  have h1 : (h0 + 1) * w0 ≤ cap * w0 := Nat.mul_le_mul_right w0 h
  have h2 : h0 * w0 + w0 ≤ cap * w0 := by
    calc h0 * w0 + w0 = (h0 + 1) * w0 := by ring
    _ ≤ cap * w0 := h1
  have h3 : (w0 + 1) * h0 = h0 * w0 + h0 := by ring
  omega

/-- Unfolding `contain_size` for a height-only cap. -/
theorem contain_size_height_only (s : ImageSequence) (first : Frame)
    (cap : Nat) (hfirst : s.first_frame = some first) :
    contain_size ⟨s, []⟩ none (some cap) =
      (if first.width ≥ ceilDivNat (cap * first.width) first.height
          ∨ first.height ≥ cap then
        .ok ⟨s.frames.map (fun f =>
          f.resize (ceilDivNat (cap * first.width) first.height) cap),
          false⟩
       else .ok s) := by
  unfold contain_size
  simp only [hfirst, Option.isNone_none, Option.isNone_some,
    Bool.true_and, Bool.false_and, Bool.and_false, if_false]
  by_cases hcond : first.width ≥ ceilDivNat (cap * first.width) first.height
      ∨ first.height ≥ cap <;>
    simp [hcond]

/-- Unfolding `contain_size` for a width-only cap. -/
theorem contain_size_width_only (s : ImageSequence) (first : Frame)
    (cap : Nat) (hfirst : s.first_frame = some first) :
    contain_size ⟨s, []⟩ (some cap) none =
      (if first.width ≥ cap
          ∨ first.height ≥ ceilDivNat (cap * first.height) first.width then
        .ok ⟨s.frames.map (fun f =>
          f.resize cap (ceilDivNat (cap * first.height) first.width)),
          false⟩
       else .ok s) := by
  unfold contain_size
  simp only [hfirst, Option.isNone_none, Option.isNone_some,
    Bool.true_and, Bool.false_and, Bool.and_false, if_false]
  by_cases hcond : first.width ≥ cap
      ∨ first.height ≥ ceilDivNat (cap * first.height) first.width <;>
    simp [hcond]

/-- C4 counterexample: with BOTH caps configured (width 100, height 100), a
100×50 frame — already within both caps — is resized to 100×100: the
output differs from the input and the height is upscaled, refuting both
the idempotence-within-caps and the never-upscales parts of the claim. -/
theorem contain_size_counterexample :
    contain_size
        { frames := ⟨[⟨100, 50, 0, 0, 0⟩], false⟩, arguments := [] }
        (some 100) (some 100) =
      .ok ⟨[⟨100, 100, 0, 0, 0⟩], false⟩
    ∧ (100 ≤ 100 ∧ 50 ≤ 100)
    ∧ ((100, 100) ≠ ((100, 50) : Nat × Nat))
    ∧ 50 < 100 :=
  ⟨rfl, by decide, by decide, by decide⟩

/-- C4 (amended): for a sequence of identically sized frames and AT MOST
ONE configured cap, `contain_size` is idempotent and never upscales: a
first frame strictly below the cap leaves the sequence untouched; a first
frame within the cap (meets it included) preserves all output dimensions
exactly; a first frame at or above the cap shrinks every frame to the
target derived from the first frame by the ceiling aspect-ratio formula,
and that target never exceeds the source dimensions.  (With both caps
configured the code applies them directly and can upscale — see the
counterexample.) -/
theorem contain_size_single_cap (s : ImageSequence) (first : Frame)
    (cap : Nat) (hfirst : s.first_frame = some first)
    (hom : ∀ f ∈ s.frames,
      f.width = first.width ∧ f.height = first.height)
    (hw0 : 0 < first.width) (hh0 : 0 < first.height) :
    ((first.height < cap →
        contain_size ⟨s, []⟩ none (some cap) = .ok s)
     ∧ (first.height ≤ cap →
        ∃ out, contain_size ⟨s, []⟩ none (some cap) = .ok out ∧
          out.frames.map (fun f => (f.width, f.height)) =
            s.frames.map (fun f => (f.width, f.height)))
     ∧ (cap ≤ first.height →
        contain_size ⟨s, []⟩ none (some cap) =
          .ok ⟨s.frames.map (fun f =>
            f.resize (ceilDivNat (cap * first.width) first.height) cap),
            false⟩
        ∧ ceilDivNat (cap * first.width) first.height ≤ first.width))
    ∧ ((first.width < cap →
        contain_size ⟨s, []⟩ (some cap) none = .ok s)
     ∧ (first.width ≤ cap →
        ∃ out, contain_size ⟨s, []⟩ (some cap) none = .ok out ∧
          out.frames.map (fun f => (f.width, f.height)) =
            s.frames.map (fun f => (f.width, f.height)))
     ∧ (cap ≤ first.width →
        contain_size ⟨s, []⟩ (some cap) none =
          .ok ⟨s.frames.map (fun f =>
            f.resize cap (ceilDivNat (cap * first.height) first.width)),
            false⟩
        ∧ ceilDivNat (cap * first.height) first.width ≤ first.height)) := by
  have hmulW : ceilDivNat (first.height * first.width) first.height =
      first.width := ceilDivNat_mul_self first.height first.width hh0
  have hmulH : ceilDivNat (first.width * first.height) first.width =
      first.height := ceilDivNat_mul_self first.width first.height hw0
  refine ⟨⟨?_, ?_, ?_⟩, ?_, ?_, ?_⟩
  · intro hlt
    rw [contain_size_height_only s first cap hfirst]
    have h1 : first.width < ceilDivNat (cap * first.width) first.height :=
      lt_ceilDivNat cap first.width first.height hw0 hh0 hlt
    rw [if_neg (by omega)]
  · intro hle
    rcases Nat.lt_or_ge first.height cap with hlt | hge
    · refine ⟨s, ?_, rfl⟩
      rw [contain_size_height_only s first cap hfirst]
      have h1 : first.width < ceilDivNat (cap * first.width) first.height :=
        lt_ceilDivNat cap first.width first.height hw0 hh0 hlt
      rw [if_neg (by omega)]
    · have heq : cap = first.height := by omega
      rw [contain_size_height_only s first cap hfirst, heq]
      rw [if_pos (by right; omega)]
      refine ⟨_, rfl, ?_⟩
      rw [List.map_map]
      refine List.map_congr_left ?_
      intro f hfm
      obtain ⟨hfw, hfh⟩ := hom f hfm
      simp [Frame.resize, hfw, hfh, hmulW]
  · intro hge
    constructor
    · rw [contain_size_height_only s first cap hfirst]
      rw [if_pos (by right; omega)]
    · calc ceilDivNat (cap * first.width) first.height
          ≤ ceilDivNat (first.height * first.width) first.height :=
            ceilDivNat_le_ceilDivNat _ _ _
              (Nat.mul_le_mul_right first.width hge)
      _ = first.width := hmulW
  · intro hlt
    rw [contain_size_width_only s first cap hfirst]
    have h1 : first.height < ceilDivNat (cap * first.height) first.width :=
      lt_ceilDivNat cap first.height first.width hh0 hw0 hlt
    rw [if_neg (by omega)]
  · intro hle
    rcases Nat.lt_or_ge first.width cap with hlt | hge
    · refine ⟨s, ?_, rfl⟩
      rw [contain_size_width_only s first cap hfirst]
      have h1 : first.height < ceilDivNat (cap * first.height) first.width :=
        lt_ceilDivNat cap first.height first.width hh0 hw0 hlt
      rw [if_neg (by omega)]
    · have heq : cap = first.width := by omega
      rw [contain_size_width_only s first cap hfirst, heq]
      rw [if_pos (by left; omega)]
      refine ⟨_, rfl, ?_⟩
      rw [List.map_map]
      refine List.map_congr_left ?_
      intro f hfm
      obtain ⟨hfw, hfh⟩ := hom f hfm
      simp [Frame.resize, hfw, hfh, hmulH]
  · intro hge
    constructor
    · rw [contain_size_width_only s first cap hfirst]
      rw [if_pos (by left; omega)]
    · calc ceilDivNat (cap * first.height) first.width
          ≤ ceilDivNat (first.width * first.height) first.width :=
            ceilDivNat_le_ceilDivNat _ _ _
              (Nat.mul_le_mul_right first.height hge)
      _ = first.height := hmulH

/-- Witness for amended C4: a 300×200 frame under the default height cap
of 500 passes through unchanged. -/
theorem contain_size_single_cap_witness :
    contain_size ⟨⟨[⟨300, 200, 0, 0, 9⟩], false⟩, []⟩ none (some 500) =
      .ok ⟨[⟨300, 200, 0, 0, 9⟩], false⟩ :=
  (contain_size_single_cap ⟨[⟨300, 200, 0, 0, 9⟩], false⟩
    ⟨300, 200, 0, 0, 9⟩ 500 rfl (by decide) (by decide)
    (by decide)).1.1 (by decide)

/-! ### Claim C8: cyclic frame consumption in `process_gif` -/

/-- Length of the cycle prefix walker: always the requested count (for a
non-empty source). -/
theorem cycleTakeAux_length (o : Frame) (os : List Frame) (n : Nat) :
    ∀ cur : List Frame, (cycleTakeAux (o :: os) cur n).length = n := by
  induction n with
  | zero => intro cur; cases cur <;> rfl
  | succ k ih =>
    intro cur
    cases cur with
    | nil => simp [cycleTakeAux, ih]
    | cons c cs => simp [cycleTakeAux, ih]

/-- Indexing the cycle prefix walker: within the current suffix it reads
the suffix, past it it wraps around the source modulo its length. -/
theorem cycleTakeAux_getD (o : Frame) (os : List Frame) (d : Frame)
    (n : Nat) :
    ∀ (cur : List Frame) (i : Nat), i < n →
      (cycleTakeAux (o :: os) cur n).getD i d =
        (if i < cur.length then cur.getD i d
         else (o :: os).getD ((i - cur.length) % (os.length + 1)) d) := by
  induction n with
  | zero => intro cur i h; omega
  | succ k ih =>
    intro cur i h
    cases cur with
    | nil =>
      cases i with
      | zero => simp [cycleTakeAux]
      | succ j =>
        have hj : j < k := by omega
        simp only [cycleTakeAux, List.getD_cons_succ]
        rw [ih os j hj]
        by_cases hcase : j < os.length
        · rw [if_pos hcase, if_neg (by simp)]
          have hmod : (j + 1) % (os.length + 1) = j + 1 :=
            Nat.mod_eq_of_lt (by omega)
          simp [hmod]
        · rw [if_neg hcase, if_neg (by simp)]
          have h2 : (j + 1 - ([] : List Frame).length) % (os.length + 1) =
              (j - os.length) % (os.length + 1) := by
            simp only [List.length_nil, Nat.sub_zero]
            rw [Nat.mod_eq_sub_mod (by omega)]
            congr 1
            omega
          rw [h2]
    | cons c cs =>
      cases i with
      | zero => simp [cycleTakeAux]
      | succ j =>
        have hj : j < k := by omega
        simp only [cycleTakeAux, List.getD_cons_succ]
        rw [ih cs j hj]
        by_cases hcase : j < cs.length
        · rw [if_pos hcase, if_pos (by simp; omega)]
        · rw [if_neg hcase, if_neg (by simp; omega)]
          have h3 : j + 1 - (c :: cs).length = j - cs.length := by
            simp only [List.length_cons]
            omega
          rw [h3]
  

/-- Indexing the cycle prefix: position `i` reads the source at
`i mod length`. -/
theorem cycleTake_getD (o : Frame) (os : List Frame) (d : Frame)
    (n i : Nat) (h : i < n) :
    (cycleTake (o :: os) n).getD i d =
      (o :: os).getD (i % (os.length + 1)) d := by
  unfold cycleTake
  rw [cycleTakeAux_getD o os d n (o :: os) i h]
  by_cases hcase : i < os.length + 1
  · rw [if_pos (by simpa using hcase), Nat.mod_eq_of_lt hcase]
  · rw [if_neg (by simpa using hcase)]
    have h2 : (i - (o :: os).length) % (os.length + 1) =
        i % (os.length + 1) := by
      simp only [List.length_cons]
      rw [Eq.comm, Nat.mod_eq_sub_mod (by omega)]
    rw [h2]

/-- Indexing a zip of lists reads both components at the same position. -/
theorem zip_getD (d : Frame) (z : Int) :
    ∀ (l1 : List Frame) (l2 : List Int) (i : Nat),
      i < l1.length → i < l2.length →
      (l1.zip l2).getD i (d, z) = (l1.getD i d, l2.getD i z) := by
  intro l1
  induction l1 with
  | nil => intro l2 i h1 h2; simp at h1
  | cons a as ih =>
    intro l2 i h1 h2
    cases l2 with
    | nil => simp at h2
    | cons b bs =>
      cases i with
      | zero => rfl
      | succ j =>
        simp only [List.zip_cons_cons, List.getD_cons_succ]
        exact ih bs j (by simpa using h1) (by simpa using h2)

/-- Cycling a singleton list yields constant repetition. -/
theorem cycleTakeAux_single (f : Frame) (n : Nat) :
    ∀ cur : List Frame, cur = [f] ∨ cur = [] →
      cycleTakeAux [f] cur n = List.replicate n f := by
  induction n with
  | zero => intro cur hc; rcases hc with rfl | rfl <;> rfl
  | succ k ih =>
    intro cur hc
    rcases hc with rfl | rfl
    · simp [cycleTakeAux, List.replicate_succ, ih [] (Or.inr rfl)]
    · simp [cycleTakeAux, List.replicate_succ, ih [] (Or.inr rfl)]

/-- Zipping a matching-length constant repetition tags every element. -/
theorem replicate_zip (f : Frame) :
    ∀ steps : List Int,
      (List.replicate steps.length f).zip steps =
        steps.map (fun z => (f, z)) := by
  intro steps
  induction steps with
  | nil => rfl
  | cons z zs ih =>
    simp only [List.length_cons, List.replicate_succ, List.zip_cons_cons,
      List.map_cons, ih]

/-- C8: for a non-empty frame sequence, `process_gif` zipped against a
finite step list of length `n` yields exactly `n` pairs, the `i`-th being
`(frames[i mod frame_count], steps[i])` — frames are consumed cyclically;
consequently `huerotate_func` on a single-frame input produces 36 frames
(degrees 0, 10, …, 350), each derived from that one source frame. -/
theorem process_gif_cyclic (frames : ImageSequence) (steps : List Int)
    (hne : frames.frames ≠ []) :
    (process_gif frames steps).length = steps.length
    ∧ (∀ (i : Nat) (d : Frame) (z : Int), i < steps.length →
        (process_gif frames steps).getD i (d, z) =
          (frames.frames.getD (i % frames.frames.length) d,
            steps.getD i z))
    ∧ (∀ (hueRotate : Frame → Int → Frame) (f : Frame) (b : Bool)
        (args : List Unit),
        huerotate_func hueRotate ⟨⟨[f], b⟩, args⟩ =
          .ok ⟨huerotate_steps.map (fun deg => hueRotate f deg), false⟩)
    ∧ huerotate_steps.length = 36
    ∧ huerotate_steps = [0, 10, 20, 30, 40, 50, 60, 70, 80, 90, 100, 110,
        120, 130, 140, 150, 160, 170, 180, 190, 200, 210, 220, 230, 240,
        250, 260, 270, 280, 290, 300, 310, 320, 330, 340, 350] := by
  obtain ⟨o, os, hfr⟩ : ∃ o os, frames.frames = o :: os := by
    cases hfrm : frames.frames with
    | nil => exact absurd hfrm hne
    | cons o os => exact ⟨o, os, rfl⟩
  refine ⟨?_, ?_, ?_, rfl, rfl⟩
  · unfold process_gif
    rw [hfr]
    unfold cycleTake
    rw [List.length_zip, cycleTakeAux_length o os steps.length (o :: os)]
    omega
  · intro i d z hi
    unfold process_gif
    rw [hfr]
    rw [zip_getD d z (cycleTake (o :: os) steps.length) steps i
      (by unfold cycleTake
          rw [cycleTakeAux_length o os steps.length (o :: os)]
          exact hi)
      hi]
    rw [cycleTake_getD o os d steps.length i hi]
    simp
  · intro hueRotate f b args
    unfold huerotate_func process_gif
    have h1 : cycleTake [f] huerotate_steps.length =
        List.replicate huerotate_steps.length f :=
      cycleTakeAux_single f huerotate_steps.length [f] (Or.inl rfl)
    rw [h1, replicate_zip f huerotate_steps, List.map_map]
    rfl

/-- Witness for C8: two source frames against three steps give exactly
three pairs. -/
theorem process_gif_cyclic_witness :
    (process_gif ⟨[frameTag 1, frameTag 2], false⟩ [5, 6, 7]).length = 3 :=
  (process_gif_cyclic ⟨[frameTag 1, frameTag 2], false⟩ [5, 6, 7]
    (by decide)).1
